import Mathlib

/-!
Shallow embedding of the lottery-scraper orchestration engine.

The repository source (`src/app/models.py`) is schema-only: it defines the
enumerations `ScrapeStatus` and `AntiScrapingMeasure` and the entity schemas
`LotteryWebsite`, `ScrapeSession`, `LotteryDraw` together with their
create/update validation schemas.  The operational core (Anti-Scraping
Classifier, Session Recorder, Draw Reconciler, Scheduler backoff, website
CRUD) is absent from the source and is modelled here from the specification,
faithfully to its words; each such definition is marked `Modelled from the
spec`.  Times are modelled as natural numbers, decimal amounts as integers,
and JSON-valued configuration as association lists over a small variant
value type.
-/

/-- Status of a scrape session, from `ScrapeStatus` in `src/app/models.py`. -/
inductive ScrapeStatus where
  | pending
  | in_progress
  | success
  | failed
  | blocked
deriving DecidableEq

/-- Anti-scraping countermeasure category, from `AntiScrapingMeasure` in
`src/app/models.py`. -/
inductive AntiScrapingMeasure where
  | none
  | cloudflare
  | captcha
  | rate_limit
  | user_agent_block
  | ip_block
  | other
deriving DecidableEq

/-- Small variant value type for JSON-valued configuration fields
(string/number/bool), per the design notes of the spec. -/
inductive ConfigValue where
  | str (s : String)
  | num (n : Int)
  | boolean (b : Bool)
deriving DecidableEq

/-- Whether the character list `m` is a leading segment of `s`. -/
def charLeadSeg (m s : List Char) : Bool :=
  match m, s with
  | [], _ => true
  | _ :: _, [] => false
  | a :: m', b :: s' => a == b && charLeadSeg m' s'

/-- Whether the character list `m` occurs contiguously inside `s`. -/
def charOccurs (m s : List Char) : Bool :=
  match s with
  | [] => m.isEmpty
  | _ :: s' => charLeadSeg m s || charOccurs m s'

/-- Whether the string `m` occurs as a contiguous substring of `body`. -/
def strOccurs (body m : String) : Bool :=
  charOccurs m.data body.data

/-- Modelled from the spec: transport outcome fed to the Anti-Scraping
Classifier — status code, headers, body snippet, how many times a
connection-refused/timeout occurred within the session window, and the
cross-session knowledge of whether a prior session with a different user
agent succeeded against the same IP (`Option.none` when unknown). -/
structure TransportOutcome where
  status_code : Option Nat
  response_headers : List (String × String)
  body : String
  conn_error_count : Nat
  prior_diff_ua_success : Option Bool
deriving DecidableEq

/-- Known Cloudflare-style challenge markers looked for in body and headers. -/
def cloudflareMarkers : List String :=
  ["cf-ray", "cf-chl", "Checking your browser", "Just a moment", "cloudflare"]

/-- Known CAPTCHA markers looked for in the body. -/
def captchaMarkers : List String :=
  ["captcha", "g-recaptcha", "hcaptcha"]

/-- Whether the transport outcome carries a known challenge marker in its
body or headers. -/
def hasChallengeMarker (t : TransportOutcome) : Bool :=
  cloudflareMarkers.any fun m =>
    strOccurs t.body m ||
      t.response_headers.any fun h => strOccurs h.1 m || strOccurs h.2 m

/-- Whether the transport outcome carries a CAPTCHA marker in its body. -/
def hasCaptchaMarker (t : TransportOutcome) : Bool :=
  captchaMarkers.any fun m => strOccurs t.body m

/-- Whether the status code is 403 or 503. -/
def isChallengeStatus (t : TransportOutcome) : Bool :=
  t.status_code == some 403 || t.status_code == some 503

/-- Whether the status code is 403 or 401. -/
def isAuthBlockStatus (t : TransportOutcome) : Bool :=
  t.status_code == some 403 || t.status_code == some 401

/-- Modelled from the spec: the Anti-Scraping Classifier, a pure function of
the transport outcome.  Rules are checked in the declared order, first match
wins: connection refused/timeout repeated at least `n` times within the
session window gives `rate_limit`; status 403/503 with known challenge
markers in body/headers gives `cloudflare`; CAPTCHA markers in the body give
`captcha`; status 403/401 without challenge markers gives `ip_block` or
`user_agent_block` disambiguated by prior different-user-agent knowledge
(`other` when unknown); otherwise `none`. -/
def classify (n : Nat) (t : TransportOutcome) : AntiScrapingMeasure :=
  if n ≤ t.conn_error_count then AntiScrapingMeasure.rate_limit
  else if isChallengeStatus t && hasChallengeMarker t then AntiScrapingMeasure.cloudflare
  else if hasCaptchaMarker t then AntiScrapingMeasure.captcha
  else if isAuthBlockStatus t && !hasChallengeMarker t then
    match t.prior_diff_ua_success with
    | some true => AntiScrapingMeasure.user_agent_block
    | some false => AntiScrapingMeasure.ip_block
    | Option.none => AntiScrapingMeasure.other
  else AntiScrapingMeasure.none

/-- Lottery website entity, from `LotteryWebsite` in `src/app/models.py`:
id, display name, unique base URL, country, active flag, scrape interval in
minutes, timestamp of last successful scrape, creation/update timestamps,
and the JSON-valued selector/header/anti-scraping configuration. -/
structure LotteryWebsite where
  id : Nat
  name : String
  url : String
  country : String
  is_active : Bool
  scrape_interval_minutes : Int
  last_scraped_at : Option Nat
  created_at : Nat
  updated_at : Nat
  selectors : List (String × String)
  headers : List (String × String)
  anti_scraping_config : List (String × ConfigValue)
deriving DecidableEq

/-- Scrape session entity, from `ScrapeSession` in `src/app/models.py`:
one record per scraping attempt with its status, timestamps, duration,
anti-scraping details, request metadata and result counts. -/
structure ScrapeSession where
  id : Nat
  website_id : Nat
  status : ScrapeStatus
  started_at : Nat
  completed_at : Option Nat
  duration_seconds : Option Nat
  anti_scraping_detected : AntiScrapingMeasure
  bypass_method_used : Option String
  user_agent : Option String
  ip_address : Option String
  draws_found : Nat
  draws_new : Nat
  error_message : Option String
  response_status_code : Option Nat
  response_headers : List (String × String)
deriving DecidableEq

/-- Modelled from the spec: state seen by the Session Recorder — the stored
websites, the stored sessions, and a fresh-id counter for new sessions. -/
structure RecorderState where
  websites : List LotteryWebsite
  sessions : List ScrapeSession
  next_session_id : Nat
deriving DecidableEq

/-- Modelled from the spec: errors raised by the Session Recorder —
`ConcurrencyConflict` for a duplicate in-progress session,
`InvalidTransition` for closing a session that is not in progress. -/
inductive RecorderError where
  | ConcurrencyConflict
  | InvalidTransition
deriving DecidableEq

/-- Whether session `s` is an in-progress session of website `wid`. -/
def inProgressFor (wid : Nat) (s : ScrapeSession) : Bool :=
  decide (s.website_id = wid ∧ s.status = ScrapeStatus.in_progress)

/-- Whether some stored session of website `wid` is in progress. -/
def hasInProgress (sessions : List ScrapeSession) (wid : Nat) : Bool :=
  sessions.any (inProgressFor wid)

/-- Modelled from the spec: `open(website)` of the Session Recorder.  Fails
with `ConcurrencyConflict` if a session for the website is already in
progress; otherwise creates a pending session, immediately transitions it to
`in_progress` and stamps `started_at` with the current time. -/
def openSession (st : RecorderState) (wid : Nat) (now : Nat)
    (ua ip : Option String) :
    Except RecorderError (RecorderState × ScrapeSession) :=
  if hasInProgress st.sessions wid then
    Except.error RecorderError.ConcurrencyConflict
  else
    let s : ScrapeSession :=
      { id := st.next_session_id
        website_id := wid
        status := ScrapeStatus.in_progress
        started_at := now
        completed_at := Option.none
        duration_seconds := Option.none
        anti_scraping_detected := AntiScrapingMeasure.none
        bypass_method_used := Option.none
        user_agent := ua
        ip_address := ip
        draws_found := 0
        draws_new := 0
        error_message := Option.none
        response_status_code := Option.none
        response_headers := [] }
    Except.ok
      ({ st with
          sessions := s :: st.sessions
          next_session_id := st.next_session_id + 1 }, s)

/-- Modelled from the spec: the outcome of one pipeline run handed to
`close` — whether extraction succeeded, the classified anti-scraping
measure, the reconciliation counts, and response metadata. -/
structure ScrapeOutcome where
  extraction_ok : Bool
  measure : AntiScrapingMeasure
  draws_found : Nat
  draws_new : Nat
  error_message : Option String
  response_status_code : Option Nat
  response_headers : List (String × String)
deriving DecidableEq

/-- Modelled from the spec: the terminal status computed by `close` —
`success` if extraction succeeded and no blocking measure stronger than
`none` was classified; `blocked` if the classifier returned anything but
`none` and no draws were extracted; `failed` on any other error. -/
def terminalStatus (o : ScrapeOutcome) : ScrapeStatus :=
  if o.extraction_ok = true ∧ o.measure = AntiScrapingMeasure.none then
    ScrapeStatus.success
  else if o.measure ≠ AntiScrapingMeasure.none ∧ o.draws_found = 0 then
    ScrapeStatus.blocked
  else
    ScrapeStatus.failed

/-- First stored session with the given id, if any. -/
def findSession (sessions : List ScrapeSession) (sid : Nat) :
    Option ScrapeSession :=
  sessions.find? fun s => decide (s.id = sid)

/-- Modelled from the spec: the closed version of a session — terminal
status from the outcome mapping, `completed_at` stamped, duration computed
as completion minus start, counts and response metadata recorded. -/
def closedSession (s : ScrapeSession) (o : ScrapeOutcome) (now : Nat) :
    ScrapeSession :=
  { s with
      status := terminalStatus o
      completed_at := some now
      duration_seconds := some (now - s.started_at)
      anti_scraping_detected := o.measure
      draws_found := o.draws_found
      draws_new := o.draws_new
      error_message := o.error_message
      response_status_code := o.response_status_code
      response_headers := o.response_headers }

/-- Modelled from the spec: stamp `last_scraped_at` of website `wid`,
leaving every other field of every website unchanged. -/
def stampLastScraped (websites : List LotteryWebsite) (wid : Nat)
    (now : Nat) : List LotteryWebsite :=
  websites.map fun w =>
    if w.id = wid then { w with last_scraped_at := some now } else w

/-- Modelled from the spec: `close(session, outcome)` of the Session
Recorder.  Requires the session to be in progress (else
`InvalidTransition`), replaces it by its closed version, and updates
`Website.last_scraped_at` only when the terminal status is `success`. -/
def closeSession (st : RecorderState) (sid : Nat) (o : ScrapeOutcome)
    (now : Nat) : Except RecorderError RecorderState :=
  match findSession st.sessions sid with
  | Option.none => Except.error RecorderError.InvalidTransition
  | some s =>
    if s.status = ScrapeStatus.in_progress then
      Except.ok
        { st with
            sessions := st.sessions.map fun t =>
              if t.id = sid then closedSession t o now else t
            websites :=
              if terminalStatus o = ScrapeStatus.success then
                stampLastScraped st.websites s.website_id now
              else
                st.websites }
    else
      Except.error RecorderError.InvalidTransition

/-- Modelled from the spec: states reachable by the Session Recorder from a
session-free initial state through `open` and `close` steps. -/
inductive RecReachable : RecorderState → Prop where
  | init (ws : List LotteryWebsite) :
      RecReachable { websites := ws, sessions := [], next_session_id := 0 }
  | openStep {st st' : RecorderState} {s : ScrapeSession}
      (wid now : Nat) (ua ip : Option String)
      (h : RecReachable st)
      (hop : openSession st wid now ua ip = Except.ok (st', s)) :
      RecReachable st'
  | closeStep {st st' : RecorderState}
      (sid : Nat) (o : ScrapeOutcome) (now : Nat)
      (h : RecReachable st)
      (hcl : closeSession st sid o now = Except.ok st') :
      RecReachable st'

/-- Mutual-exclusion invariant: at most one in-progress session per
website. -/
def mutexInv (st : RecorderState) : Prop :=
  ∀ wid : Nat, st.sessions.countP (inProgressFor wid) ≤ 1

/-- Tail of the canonical draw key: the official draw number when present,
otherwise a hash derived from game name and winning numbers. -/
inductive DrawKeyTail where
  | byNumber (n : String)
  | byHash (h : Nat)
deriving DecidableEq

/-- Modelled from the spec: the canonical key of a draw — website,
normalized draw date, and the draw-number-or-derived-hash tail. -/
structure DrawKey where
  website_id : Nat
  draw_date : Nat
  tail : DrawKeyTail
deriving DecidableEq

/-- Simple polynomial hash of a string. -/
def hashString (s : String) : Nat :=
  s.data.foldl (fun a c => a * 31 + c.toNat) 7

/-- Hash of game name and winning numbers, used as the derived key tail
when no official draw number is present. -/
def hashGameNumbers (game : Option String) (nums : List Int) : Nat :=
  nums.foldl (fun a n => a * 37 + n.natAbs * 2 + (if n < 0 then 1 else 0))
    (hashString (game.getD ""))

/-- Modelled from the spec: one raw extracted record handed to the Draw
Reconciler, with the fields of `LotteryDrawCreate` in `src/app/models.py`
(the website reference is passed separately); `draw_date` is optional here
because a malformed record may lack it. -/
structure RawRecord where
  draw_date : Option Nat
  draw_number : Option String
  game_name : Option String
  winning_numbers : List Int
  bonus_numbers : List Int
  special_numbers : List (String × ConfigValue)
  jackpot_amount : Option Int
  currency : Option String
  winners_count : Option Nat
  next_draw_date : Option Nat
  prize_breakdown : List (List (String × ConfigValue))
  raw_data : List (String × ConfigValue)
deriving DecidableEq

/-- Lottery draw entity, from `LotteryDraw` in `src/app/models.py`, plus the
materialized derived key tail that the spec's atomic insert-or-update-by-key
operation relies on. -/
structure LotteryDraw where
  id : Nat
  website_id : Nat
  draw_date : Nat
  draw_number : Option String
  game_name : Option String
  winning_numbers : List Int
  bonus_numbers : List Int
  special_numbers : List (String × ConfigValue)
  jackpot_amount : Option Int
  currency : Option String
  winners_count : Option Nat
  next_draw_date : Option Nat
  prize_breakdown : List (List (String × ConfigValue))
  raw_data : List (String × ConfigValue)
  derived_key_tail : DrawKeyTail
  scraped_at : Nat
  created_at : Nat
  updated_at : Nat
deriving DecidableEq

/-- Modelled from the spec: derive the canonical key of a record — website,
normalized draw date, draw number if present else a hash of game name and
winning numbers. -/
def deriveKey (wid : Nat) (d : Nat) (r : RawRecord) : DrawKey :=
  { website_id := wid
    draw_date := d
    tail :=
      match r.draw_number with
      | some n => DrawKeyTail.byNumber n
      | Option.none =>
          DrawKeyTail.byHash (hashGameNumbers r.game_name r.winning_numbers) }

/-- Canonical key of a stored draw. -/
def keyOf (d : LotteryDraw) : DrawKey :=
  { website_id := d.website_id
    draw_date := d.draw_date
    tail := d.derived_key_tail }

/-- First stored draw with the given canonical key, if any. -/
def findByKey (store : List LotteryDraw) (k : DrawKey) : Option LotteryDraw :=
  store.find? fun d => decide (keyOf d = k)

/-- Replace the first stored draw with the given canonical key by its image
under `f`, leaving the rest of the store untouched. -/
def updateByKey (store : List LotteryDraw) (k : DrawKey)
    (f : LotteryDraw → LotteryDraw) : List LotteryDraw :=
  match store with
  | [] => []
  | d :: rest =>
      if keyOf d = k then f d :: rest else d :: updateByKey rest k f

/-- Fill an optional field: the stored value wins when populated, else the
value from the new record is taken. -/
def fillOpt {α : Type} (stored new : Option α) : Option α :=
  match stored with
  | some v => some v
  | Option.none => new

/-- Fill a list-valued field: the stored value wins when non-empty, else the
value from the new record is taken. -/
def fillList {α : Type} (stored new : List α) : List α :=
  match stored with
  | [] => new
  | v :: rest => v :: rest

/-- Modelled from the spec: the merge policy of the Draw Reconciler —
fields that are empty/null on the stored row are filled from the new
record; fields already populated are left unchanged (stored value wins on
disagreement); the identifying fields and timestamps are untouched. -/
def mergeDraw (d : LotteryDraw) (r : RawRecord) : LotteryDraw :=
  { d with
      draw_number := fillOpt d.draw_number r.draw_number
      game_name := fillOpt d.game_name r.game_name
      winning_numbers := fillList d.winning_numbers r.winning_numbers
      bonus_numbers := fillList d.bonus_numbers r.bonus_numbers
      special_numbers := fillList d.special_numbers r.special_numbers
      jackpot_amount := fillOpt d.jackpot_amount r.jackpot_amount
      currency := fillOpt d.currency r.currency
      winners_count := fillOpt d.winners_count r.winners_count
      next_draw_date := fillOpt d.next_draw_date r.next_draw_date
      prize_breakdown := fillList d.prize_breakdown r.prize_breakdown
      raw_data := fillList d.raw_data r.raw_data }

/-- Modelled from the spec: the new stored draw inserted for a record whose
canonical key is absent from the store. -/
def newDrawFrom (nid wid dd : Nat) (r : RawRecord) (now : Nat) :
    LotteryDraw :=
  { id := nid
    website_id := wid
    draw_date := dd
    draw_number := r.draw_number
    game_name := r.game_name
    winning_numbers := r.winning_numbers
    bonus_numbers := r.bonus_numbers
    special_numbers := r.special_numbers
    jackpot_amount := r.jackpot_amount
    currency := r.currency
    winners_count := r.winners_count
    next_draw_date := r.next_draw_date
    prize_breakdown := r.prize_breakdown
    raw_data := r.raw_data
    derived_key_tail := (deriveKey wid dd r).tail
    scraped_at := now
    created_at := now
    updated_at := now }

/-- Modelled from the spec: validation of a raw record — required fields
are a draw date and a non-empty list of winning numbers; the rejection
reason when validation fails. -/
def rejectReason (r : RawRecord) : Option String :=
  match r.draw_date with
  | Option.none => some "missing draw_date"
  | some _ =>
      if r.winning_numbers.isEmpty then some "empty winning_numbers"
      else Option.none

/-- Modelled from the spec: accumulator of one reconciliation run — the
draw store, the fresh-id counter, the `draws_found`/`draws_new` counts and
the rejected records with reasons. -/
structure ReconcileState where
  store : List LotteryDraw
  next_id : Nat
  draws_found : Nat
  draws_new : Nat
  rejected : List (RawRecord × String)
deriving DecidableEq

/-- Modelled from the spec: the Draw Reconciler on one record.
`draws_found` increments for every record processed.  A record failing
validation is rejected and not stored.  Otherwise its canonical key is
derived and looked up: if absent a new draw is inserted and `draws_new`
increments; if present the stored draw is merged in place. -/
def reconcileRecord (wid now : Nat) (st : ReconcileState) (r : RawRecord) :
    ReconcileState :=
  match r.draw_date with
  | Option.none =>
      { st with
          draws_found := st.draws_found + 1
          rejected := st.rejected ++ [(r, "missing draw_date")] }
  | some dd =>
      if r.winning_numbers.isEmpty then
        { st with
            draws_found := st.draws_found + 1
            rejected := st.rejected ++ [(r, "empty winning_numbers")] }
      else
        let k := deriveKey wid dd r
        match findByKey st.store k with
        | Option.none =>
            { st with
                store := st.store ++ [newDrawFrom st.next_id wid dd r now]
                next_id := st.next_id + 1
                draws_found := st.draws_found + 1
                draws_new := st.draws_new + 1 }
        | some _ =>
            { st with
                store := updateByKey st.store k fun d => mergeDraw d r
                draws_found := st.draws_found + 1 }

/-- Modelled from the spec: the Draw Reconciler on an ordered batch of raw
extracted records, starting from the given store and fresh-id counter with
all counts at zero. -/
def reconcileBatch (wid now : Nat) (records : List RawRecord)
    (store : List LotteryDraw) (nid : Nat) : ReconcileState :=
  records.foldl (reconcileRecord wid now)
    { store := store
      next_id := nid
      draws_found := 0
      draws_new := 0
      rejected := [] }

/-- Canonical-key uniqueness of a draw store: no two rows share a key. -/
def keysUnique (store : List LotteryDraw) : Prop :=
  (store.map keyOf).Nodup

/-- Modelled from the spec: draw stores reachable from the empty store
through batches of the Draw Reconciler. -/
inductive DrawStoreReachable : List LotteryDraw → Prop where
  | base : DrawStoreReachable []
  | step (wid now nid : Nat) (B : List RawRecord) {S : List LotteryDraw}
      (h : DrawStoreReachable S) :
      DrawStoreReachable (reconcileBatch wid now B S nid).store

/-- Modelled from the spec: the effective backoff multiplier — the base
multiplier raised to the number of consecutive failures, capped at the
configured maximum multiplier. -/
def effectiveMultiplier (base maxMult failures : Nat) : Nat :=
  min (base ^ failures) maxMult

/-- Modelled from the spec: the next eligible attempt time of a website —
`last_scraped_at + interval * backoff_multiplier ^ consecutive_failures`,
with the multiplier capped at the configured maximum. -/
def nextEligibleTime (last interval base maxMult failures : Nat) : Nat :=
  last + interval * effectiveMultiplier base maxMult failures

/-- Modelled from the spec: the per-website backoff bookkeeping of the
Scheduler — the last-scraped timestamp and the consecutive-failure count. -/
structure BackoffState where
  last_scraped_at : Nat
  consecutive_failures : Nat
deriving DecidableEq

/-- Modelled from the spec: how a terminal session outcome updates the
backoff bookkeeping — `success` stamps the timestamp and resets the
multiplier to 1 (zero consecutive failures); `blocked` and `failed` add one
consecutive failure and leave the timestamp alone. -/
def applyOutcome (st : BackoffState) (s : ScrapeStatus) (now : Nat) :
    BackoffState :=
  match s with
  | ScrapeStatus.success =>
      { last_scraped_at := now, consecutive_failures := 0 }
  | ScrapeStatus.failed =>
      { st with consecutive_failures := st.consecutive_failures + 1 }
  | ScrapeStatus.blocked =>
      { st with consecutive_failures := st.consecutive_failures + 1 }
  | _ => st

/-- Modelled from the spec: whether the website is eligible for its next
attempt at time `now` under the backoff policy. -/
def backoffEligible (st : BackoffState) (interval base maxMult now : Nat) :
    Bool :=
  decide (nextEligibleTime st.last_scraped_at interval base maxMult
    st.consecutive_failures ≤ now)

/-- Website creation payload, from `LotteryWebsiteCreate` in
`src/app/models.py`. -/
structure LotteryWebsiteCreate where
  name : String
  url : String
  country : String
  is_active : Bool
  scrape_interval_minutes : Int
  selectors : List (String × String)
  headers : List (String × String)
  anti_scraping_config : List (String × ConfigValue)
deriving DecidableEq

/-- Website update payload, from `LotteryWebsiteUpdate` in
`src/app/models.py`; absent fields are left unchanged. -/
structure LotteryWebsiteUpdate where
  name : Option String
  url : Option String
  country : Option String
  is_active : Option Bool
  scrape_interval_minutes : Option Int
  selectors : Option (List (String × String))
  headers : Option (List (String × String))
  anti_scraping_config : Option (List (String × ConfigValue))
deriving DecidableEq

/-- Validation of a creation payload, from the field constraints of
`LotteryWebsiteCreate`: length bounds and scrape interval between 1 and
1440 minutes. -/
def validWebsiteCreate (c : LotteryWebsiteCreate) : Bool :=
  decide (c.name.length ≤ 100 ∧ c.url.length ≤ 500 ∧ c.country.length ≤ 50 ∧
    1 ≤ c.scrape_interval_minutes ∧ c.scrape_interval_minutes ≤ 1440)

/-- Validation of an update payload, from the field constraints of
`LotteryWebsiteUpdate`: each supplied field obeys the same bounds as on
creation, in particular a supplied scrape interval lies between 1 and 1440
minutes. -/
def validWebsiteUpdate (u : LotteryWebsiteUpdate) : Bool :=
  u.name.all (fun n => decide (n.length ≤ 100)) &&
  u.url.all (fun v => decide (v.length ≤ 500)) &&
  u.country.all (fun v => decide (v.length ≤ 50)) &&
  u.scrape_interval_minutes.all (fun i => decide (1 ≤ i ∧ i ≤ 1440))

/-- Modelled from the spec: errors of the website create/update
operations — validation failure, violation of the unique URL constraint,
or an unknown website id. -/
inductive WebsiteOpError where
  | ValidationFailed
  | DuplicateUrl
  | NotFound
deriving DecidableEq

/-- Modelled from the spec: the website store with its fresh-id counter. -/
structure WebsiteStore where
  websites : List LotteryWebsite
  next_id : Nat
deriving DecidableEq

/-- Whether some stored website already uses the given URL. -/
def urlTaken (ws : List LotteryWebsite) (u : String) : Bool :=
  ws.any fun w => decide (w.url = u)

/-- Modelled from the spec: the stored website built from an accepted
creation payload, with a fresh id and `last_scraped_at` initially null. -/
def newWebsiteFrom (nid : Nat) (c : LotteryWebsiteCreate) (now : Nat) :
    LotteryWebsite :=
  { id := nid
    name := c.name
    url := c.url
    country := c.country
    is_active := c.is_active
    scrape_interval_minutes := c.scrape_interval_minutes
    last_scraped_at := Option.none
    created_at := now
    updated_at := now
    selectors := c.selectors
    headers := c.headers
    anti_scraping_config := c.anti_scraping_config }

/-- Modelled from the spec: the website create operation — rejects a
payload failing validation, enforces the unique URL constraint of the
schema, and otherwise appends a new website with a fresh id. -/
def createWebsite (st : WebsiteStore) (c : LotteryWebsiteCreate)
    (now : Nat) : Except WebsiteOpError WebsiteStore :=
  if validWebsiteCreate c = false then
    Except.error WebsiteOpError.ValidationFailed
  else if urlTaken st.websites c.url then
    Except.error WebsiteOpError.DuplicateUrl
  else
    Except.ok
      { websites := st.websites ++ [newWebsiteFrom st.next_id c now]
        next_id := st.next_id + 1 }

/-- Modelled from the spec: result of applying an update payload to one
stored website — supplied fields replace stored ones, absent fields are
kept, `updated_at` is stamped. -/
def applyUpdate (w : LotteryWebsite) (u : LotteryWebsiteUpdate)
    (now : Nat) : LotteryWebsite :=
  { w with
      name := u.name.getD w.name
      url := u.url.getD w.url
      country := u.country.getD w.country
      is_active := u.is_active.getD w.is_active
      scrape_interval_minutes :=
        u.scrape_interval_minutes.getD w.scrape_interval_minutes
      selectors := u.selectors.getD w.selectors
      headers := u.headers.getD w.headers
      anti_scraping_config :=
        u.anti_scraping_config.getD w.anti_scraping_config
      updated_at := now }

/-- First stored website with the given id, if any. -/
def findWebsite (ws : List LotteryWebsite) (wid : Nat) :
    Option LotteryWebsite :=
  ws.find? fun w => decide (w.id = wid)

/-- Modelled from the spec: the website update operation — rejects a
payload failing validation, requires the website to exist, enforces the
unique URL constraint against every other stored website, and otherwise
replaces the targeted website by its updated version. -/
def updateWebsite (st : WebsiteStore) (wid : Nat)
    (u : LotteryWebsiteUpdate) (now : Nat) :
    Except WebsiteOpError WebsiteStore :=
  if validWebsiteUpdate u = false then
    Except.error WebsiteOpError.ValidationFailed
  else
    match findWebsite st.websites wid with
    | Option.none => Except.error WebsiteOpError.NotFound
    | some w =>
      if st.websites.any (fun x =>
          decide (¬ x.id = wid ∧ x.url = (applyUpdate w u now).url)) then
        Except.error WebsiteOpError.DuplicateUrl
      else
        Except.ok
          { st with
              websites := st.websites.map fun x =>
                if x.id = wid then applyUpdate x u now else x }

/-- Modelled from the spec: website stores reachable from the empty store
through create and update operations, plus the scraper's only write — the
`last_scraped_at` stamp on a successful session close. -/
inductive WebsiteReachable : WebsiteStore → Prop where
  | base : WebsiteReachable { websites := [], next_id := 0 }
  | createStep {st st' : WebsiteStore} (c : LotteryWebsiteCreate) (now : Nat)
      (h : WebsiteReachable st)
      (hc : createWebsite st c now = Except.ok st') :
      WebsiteReachable st'
  | updateStep {st st' : WebsiteStore} (wid : Nat)
      (u : LotteryWebsiteUpdate) (now : Nat)
      (h : WebsiteReachable st)
      (hu : updateWebsite st wid u now = Except.ok st') :
      WebsiteReachable st'
  | stampStep {st : WebsiteStore} (wid now : Nat)
      (h : WebsiteReachable st) :
      WebsiteReachable
        { st with websites := stampLastScraped st.websites wid now }

/-- C4: the Anti-Scraping Classifier is a pure function of the transport
outcome checking its rules in the declared order with first match winning:
repeated connection errors give `rate_limit`; then status 403/503 with
known challenge markers gives `cloudflare`; then CAPTCHA body markers give
`captcha`; then plain 403/401 gives `ip_block`, `user_agent_block` or
`other`; otherwise `none`.  An input matching both the challenge-signature
rule and a later generic status-code rule gets the earlier rule's category;
a status-503 response with a CAPTCHA marker is classified per the declared
order — `cloudflare` when a challenge marker is also present (that rule
comes first), `captcha` when only the CAPTCHA marker is. -/
theorem classifier_rule_order :
    (∀ n t, n ≤ t.conn_error_count →
      classify n t = AntiScrapingMeasure.rate_limit)
  ∧ (∀ n t, ¬ n ≤ t.conn_error_count →
      isChallengeStatus t = true → hasChallengeMarker t = true →
      classify n t = AntiScrapingMeasure.cloudflare)
  ∧ (∀ n t, ¬ n ≤ t.conn_error_count →
      hasChallengeMarker t = false → hasCaptchaMarker t = true →
      classify n t = AntiScrapingMeasure.captcha)
  ∧ (∀ n t, ¬ n ≤ t.conn_error_count →
      t.status_code = some 503 → hasCaptchaMarker t = true →
      hasChallengeMarker t = false →
      classify n t = AntiScrapingMeasure.captcha)
  ∧ (∀ n t, ¬ n ≤ t.conn_error_count →
      hasChallengeMarker t = false → hasCaptchaMarker t = false →
      isAuthBlockStatus t = true →
      classify n t =
        (match t.prior_diff_ua_success with
         | some true => AntiScrapingMeasure.user_agent_block
         | some false => AntiScrapingMeasure.ip_block
         | Option.none => AntiScrapingMeasure.other))
  ∧ (∀ n t, ¬ n ≤ t.conn_error_count →
      hasChallengeMarker t = false → hasCaptchaMarker t = false →
      isAuthBlockStatus t = false →
      classify n t = AntiScrapingMeasure.none) := by
  refine ⟨?_, ?_, ?_, ?_, ?_, ?_⟩
  · intro n t hn
    simp [classify, hn]
  · intro n t hn hs hm
    simp [classify, hn, hs, hm]
  · intro n t hn hm hc
    simp [classify, hn, hm, hc]
  · intro n t hn _ hc hm
    simp [classify, hn, hm, hc]
  · intro n t hn hm hc ha
    simp [classify, hn, hm, hc, ha]
  · intro n t hn hm hc ha
    simp [classify, hn, hm, hc, ha]

/-- Concrete transport outcome: a 403 response carrying a Cloudflare
challenge marker. -/
def sampleCloudflareOutcome : TransportOutcome :=
  { status_code := some 403
    response_headers := [("server", "cloudflare")]
    body := "Checking your browser"
    conn_error_count := 0
    prior_diff_ua_success := Option.none }

/-- Concrete transport outcome: a 503 response whose body carries a CAPTCHA
marker but no challenge marker. -/
def sampleCaptchaOutcome : TransportOutcome :=
  { status_code := some 503
    response_headers := []
    body := "solve the captcha below"
    conn_error_count := 0
    prior_diff_ua_success := Option.none }

theorem classifier_rule_order_witness :
    classify 3 sampleCloudflareOutcome = AntiScrapingMeasure.cloudflare ∧
    classify 3 sampleCaptchaOutcome = AntiScrapingMeasure.captcha :=
  ⟨classifier_rule_order.2.1 3 sampleCloudflareOutcome (by decide)
      (by decide) (by decide),
   classifier_rule_order.2.2.2.1 3 sampleCaptchaOutcome (by decide) rfl
      (by decide) (by decide)⟩

/-- C5: after a blocked or failed outcome the consecutive-failure count
grows by one and the last-scraped timestamp is untouched, the next eligible
attempt time is `last_scraped_at + interval * multiplier ^ failures` with
the multiplier capped at the configured maximum, the multiplier resets to 1
on success, and after 3 consecutive blocked outcomes with base 2 and
interval 60 the 4th attempt is not eligible before
`last_scraped_at + 480` minutes (when the cap is at least 8). -/
theorem backoff_exponential_growth :
    (∀ last interval base maxM f,
      effectiveMultiplier base maxM f ≤ maxM ∧
      (base ^ f ≤ maxM →
        nextEligibleTime last interval base maxM f =
          last + interval * base ^ f))
  ∧ (∀ st now,
      (applyOutcome st ScrapeStatus.blocked now).consecutive_failures =
        st.consecutive_failures + 1 ∧
      (applyOutcome st ScrapeStatus.blocked now).last_scraped_at =
        st.last_scraped_at ∧
      (applyOutcome st ScrapeStatus.failed now).consecutive_failures =
        st.consecutive_failures + 1 ∧
      (applyOutcome st ScrapeStatus.failed now).last_scraped_at =
        st.last_scraped_at)
  ∧ (∀ st now interval base maxM, 1 ≤ maxM →
      (applyOutcome st ScrapeStatus.success now).consecutive_failures = 0 ∧
      nextEligibleTime
        (applyOutcome st ScrapeStatus.success now).last_scraped_at
        interval base maxM
        (applyOutcome st ScrapeStatus.success now).consecutive_failures =
        now + interval * 1)
  ∧ (∀ st n1 n2 n3 maxM t,
      st.consecutive_failures = 0 → 8 ≤ maxM →
      t < st.last_scraped_at + 60 * 8 →
      backoffEligible
        (applyOutcome
          (applyOutcome (applyOutcome st ScrapeStatus.blocked n1)
            ScrapeStatus.blocked n2)
          ScrapeStatus.blocked n3)
        60 2 maxM t = false) := by
  refine ⟨?_, ?_, ?_, ?_⟩
  · intro last interval base maxM f
    refine ⟨Nat.min_le_right _ _, ?_⟩
    intro hle
    simp [nextEligibleTime, effectiveMultiplier, Nat.min_eq_left hle]
  · intro st now
    simp [applyOutcome]
  · intro st now interval base maxM hmax
    refine ⟨rfl, ?_⟩
    simp [applyOutcome, nextEligibleTime, effectiveMultiplier,
      Nat.min_eq_left hmax]
  · intro st n1 n2 n3 maxM t h0 h8 ht
    simp only [backoffEligible, nextEligibleTime, effectiveMultiplier,
      applyOutcome, h0, decide_eq_false_iff_not, not_le]
    have hmin : min (2 ^ (0 + 1 + 1 + 1)) maxM = 8 := by
      rw [Nat.min_eq_left]
      · norm_num
      · norm_num
        omega
    rw [hmin]
    omega

theorem backoff_exponential_growth_witness :
    backoffEligible
      (applyOutcome
        (applyOutcome
          (applyOutcome { last_scraped_at := 100, consecutive_failures := 0 }
            ScrapeStatus.blocked 160)
          ScrapeStatus.blocked 220)
        ScrapeStatus.blocked 280)
      60 2 10 579 = false :=
  backoff_exponential_growth.2.2.2
    { last_scraped_at := 100, consecutive_failures := 0 }
    160 220 280 10 579 rfl (by decide) (by decide)

theorem closedSession_id (s : ScrapeSession) (o : ScrapeOutcome) (now : Nat) :
    (closedSession s o now).id = s.id := rfl

theorem closedSession_status (s : ScrapeSession) (o : ScrapeOutcome)
    (now : Nat) : (closedSession s o now).status = terminalStatus o := rfl

theorem terminalStatus_cases (o : ScrapeOutcome) :
    terminalStatus o = ScrapeStatus.success ∨
    terminalStatus o = ScrapeStatus.failed ∨
    terminalStatus o = ScrapeStatus.blocked := by
  unfold terminalStatus
  split
  · exact Or.inl rfl
  · split
    · exact Or.inr (Or.inr rfl)
    · exact Or.inr (Or.inl rfl)

theorem terminalStatus_ne_in_progress (o : ScrapeOutcome) :
    terminalStatus o ≠ ScrapeStatus.in_progress := by
  rcases terminalStatus_cases o with h | h | h <;> simp [h]

theorem findSession_map_closed (l : List ScrapeSession) (sid : Nat)
    (o : ScrapeOutcome) (now : Nat) (s : ScrapeSession)
    (h : findSession l sid = some s) :
    findSession
      (l.map fun t => if t.id = sid then closedSession t o now else t) sid =
      some (closedSession s o now) := by
  induction l with
  | nil => simp [findSession] at h
  | cons a l ih =>
    by_cases ha : a.id = sid
    · rw [findSession, List.find?_cons_of_pos _ (by simp [ha])] at h
      cases h
      simp only [List.map_cons, if_pos ha]
      rw [findSession,
        List.find?_cons_of_pos _ (by simp [closedSession_id, ha])]
    · rw [findSession, List.find?_cons_of_neg _ (by simp [ha])] at h
      simp only [List.map_cons, if_neg ha]
      rw [findSession, List.find?_cons_of_neg _ (by simp [ha])]
      exact ih h

theorem closeSession_ok_inv {st st' : RecorderState} {sid : Nat}
    {o : ScrapeOutcome} {now : Nat}
    (h : closeSession st sid o now = Except.ok st') :
    ∃ s, findSession st.sessions sid = some s ∧
      s.status = ScrapeStatus.in_progress ∧
      st' = { st with
        sessions := st.sessions.map fun t =>
          if t.id = sid then closedSession t o now else t
        websites :=
          if terminalStatus o = ScrapeStatus.success then
            stampLastScraped st.websites s.website_id now
          else st.websites } := by
  unfold closeSession at h
  split at h
  · cases h
  · next s hf =>
    split at h
    · next hs => exact ⟨s, hf, hs, (Except.ok.inj h).symm⟩
    · cases h

/-- C7: `close(session, outcome)` requires the session to be in progress —
closing a session whose status is not `in_progress` fails with
`InvalidTransition`; a successful close stamps `completed_at`, computes
`duration_seconds` as completion minus start, sets exactly one terminal
status from {success, failed, blocked} according to the outcome mapping,
stamps `draws_found`/`draws_new`, and a second close of the same session
fails with `InvalidTransition` — a terminal session is immutable. -/
theorem close_session_semantics :
    (∀ st sid o now s, findSession st.sessions sid = some s →
      s.status ≠ ScrapeStatus.in_progress →
      closeSession st sid o now =
        Except.error RecorderError.InvalidTransition)
  ∧ (∀ st sid o now st', closeSession st sid o now = Except.ok st' →
      ∃ s, findSession st.sessions sid = some s ∧
        s.status = ScrapeStatus.in_progress ∧
        findSession st'.sessions sid = some (closedSession s o now) ∧
        (closedSession s o now).completed_at = some now ∧
        (closedSession s o now).duration_seconds =
          some (now - s.started_at) ∧
        (closedSession s o now).status = terminalStatus o ∧
        (terminalStatus o = ScrapeStatus.success ∨
          terminalStatus o = ScrapeStatus.failed ∨
          terminalStatus o = ScrapeStatus.blocked) ∧
        (closedSession s o now).draws_found = o.draws_found ∧
        (closedSession s o now).draws_new = o.draws_new)
  ∧ (∀ st sid o now st' o' now2,
      closeSession st sid o now = Except.ok st' →
      closeSession st' sid o' now2 =
        Except.error RecorderError.InvalidTransition) := by
  refine ⟨?_, ?_, ?_⟩
  · intro st sid o now s hf hs
    simp [closeSession, hf, hs]
  · intro st sid o now st' h
    obtain ⟨s, hf, hs, hst⟩ := closeSession_ok_inv h
    subst hst
    exact ⟨s, hf, hs, findSession_map_closed _ _ _ _ _ hf, rfl, rfl, rfl,
      terminalStatus_cases o, rfl, rfl⟩
  · intro st sid o now st' o' now2 h
    obtain ⟨s, hf, _, hst⟩ := closeSession_ok_inv h
    subst hst
    have hfind := findSession_map_closed st.sessions sid o now s hf
    simp only [closeSession, hfind, closedSession_status]
    rw [if_neg (terminalStatus_ne_in_progress o)]

/-- Concrete in-progress session used by witnesses. -/
def sampleSession : ScrapeSession :=
  { id := 0
    website_id := 1
    status := ScrapeStatus.in_progress
    started_at := 10
    completed_at := Option.none
    duration_seconds := Option.none
    anti_scraping_detected := AntiScrapingMeasure.none
    bypass_method_used := Option.none
    user_agent := Option.none
    ip_address := Option.none
    draws_found := 0
    draws_new := 0
    error_message := Option.none
    response_status_code := Option.none
    response_headers := [] }

/-- Concrete website used by witnesses. -/
def sampleWebsite : LotteryWebsite :=
  { id := 1
    name := "Lotto"
    url := "https://example.org"
    country := "US"
    is_active := true
    scrape_interval_minutes := 60
    last_scraped_at := Option.none
    created_at := 0
    updated_at := 0
    selectors := []
    headers := []
    anti_scraping_config := [] }

/-- Concrete recorder state with one in-progress session. -/
def sampleRecState : RecorderState :=
  { websites := [sampleWebsite]
    sessions := [sampleSession]
    next_session_id := 1 }

/-- Concrete successful scrape outcome. -/
def sampleOutcomeOk : ScrapeOutcome :=
  { extraction_ok := true
    measure := AntiScrapingMeasure.none
    draws_found := 2
    draws_new := 2
    error_message := Option.none
    response_status_code := some 200
    response_headers := [] }

/-- Concrete recorder state after closing the sample session. -/
def sampleClosedState : RecorderState :=
  { websites := stampLastScraped [sampleWebsite] 1 20
    sessions := [closedSession sampleSession sampleOutcomeOk 20]
    next_session_id := 1 }

theorem close_session_semantics_witness :
    closeSession sampleClosedState 0 sampleOutcomeOk 21 =
      Except.error RecorderError.InvalidTransition :=
  close_session_semantics.2.2 sampleRecState 0 sampleOutcomeOk 20
    sampleClosedState sampleOutcomeOk 21 rfl

/-- C8: closing a session updates `Website.last_scraped_at` if and only if
the terminal status is `success` — a close whose terminal status is
`blocked` or `failed` leaves the stored websites entirely unchanged, a
successful close rewrites exactly the scraped website's `last_scraped_at`,
and the stamp touches no other field of any website. -/
theorem last_scraped_at_frame :
    (∀ st sid o now st', closeSession st sid o now = Except.ok st' →
      terminalStatus o ≠ ScrapeStatus.success → st'.websites = st.websites)
  ∧ (∀ st sid o now st', closeSession st sid o now = Except.ok st' →
      terminalStatus o = ScrapeStatus.success →
      ∃ s, findSession st.sessions sid = some s ∧
        st'.websites = stampLastScraped st.websites s.website_id now)
  ∧ (∀ ws wid now w', w' ∈ stampLastScraped ws wid now →
      ∃ w, w ∈ ws ∧ w'.id = w.id ∧ w'.name = w.name ∧ w'.url = w.url ∧
        w'.country = w.country ∧ w'.is_active = w.is_active ∧
        w'.scrape_interval_minutes = w.scrape_interval_minutes ∧
        w'.created_at = w.created_at ∧ w'.updated_at = w.updated_at ∧
        w'.selectors = w.selectors ∧ w'.headers = w.headers ∧
        w'.anti_scraping_config = w.anti_scraping_config) := by
  refine ⟨?_, ?_, ?_⟩
  · intro st sid o now st' h hns
    obtain ⟨s, _, _, hst⟩ := closeSession_ok_inv h
    subst hst
    simp [if_neg hns]
  · intro st sid o now st' h hsu
    obtain ⟨s, hf, _, hst⟩ := closeSession_ok_inv h
    subst hst
    exact ⟨s, hf, by simp [if_pos hsu]⟩
  · intro ws wid now w' hmem
    rw [stampLastScraped, List.mem_map] at hmem
    obtain ⟨w, hw, hEq⟩ := hmem
    subst hEq
    refine ⟨w, hw, ?_⟩
    by_cases hid : w.id = wid <;> simp [hid]

theorem last_scraped_at_frame_witness :
    ∃ s, findSession sampleRecState.sessions 0 = some s ∧
      sampleClosedState.websites =
        stampLastScraped sampleRecState.websites s.website_id 20 :=
  last_scraped_at_frame.2.1 sampleRecState 0 sampleOutcomeOk 20
    sampleClosedState rfl rfl

theorem openSession_ok_inv {st st' : RecorderState} {wid now : Nat}
    {ua ip : Option String} {s : ScrapeSession}
    (h : openSession st wid now ua ip = Except.ok (st', s)) :
    hasInProgress st.sessions wid = false ∧
    s.website_id = wid ∧ s.status = ScrapeStatus.in_progress ∧
    s.started_at = now ∧ st'.sessions = s :: st.sessions ∧
    st'.websites = st.websites := by
  unfold openSession at h
  split at h
  · cases h
  · next hip =>
    have h' := Except.ok.inj h
    have hst : st' = _ := (congrArg Prod.fst h').symm
    have hs : s = _ := (congrArg Prod.snd h').symm
    subst hst
    subst hs
    exact ⟨by simpa using hip, rfl, rfl, rfl, rfl, rfl⟩

theorem any_false_countP {α : Type} (p : α → Bool) (l : List α)
    (h : l.any p = false) : l.countP p = 0 := by
  rw [List.countP_eq_zero]
  intro a ha hpa
  have htrue : l.any p = true := List.any_eq_true.mpr ⟨a, ha, hpa⟩
  rw [h] at htrue
  cases htrue

theorem countP_map_le {α : Type} (p : α → Bool) (f : α → α) (l : List α)
    (hf : ∀ t, p (f t) = true → p t = true) :
    (l.map f).countP p ≤ l.countP p := by
  induction l with
  | nil => simp
  | cons a l ih =>
    rw [List.map_cons, List.countP_cons, List.countP_cons]
    by_cases hpa : p (f a) = true
    · rw [if_pos hpa, if_pos (hf a hpa)]
      omega
    · rw [if_neg hpa]
      split <;> omega

theorem mutexInv_open {st st' : RecorderState} {wid now : Nat}
    {ua ip : Option String} {s : ScrapeSession}
    (hinv : mutexInv st)
    (h : openSession st wid now ua ip = Except.ok (st', s)) :
    mutexInv st' := by
  obtain ⟨hip, hwid, hstat, _, hsess, _⟩ := openSession_ok_inv h
  intro wid0
  rw [hsess, List.countP_cons]
  by_cases hw : wid0 = wid
  · subst hw
    have h0 : st.sessions.countP (inProgressFor wid0) = 0 :=
      any_false_countP _ _ hip
    rw [h0]
    split <;> omega
  · have h1 := hinv wid0
    have hs0 : inProgressFor wid0 s = false := by
      have hne : ¬ (s.website_id = wid0 ∧
          s.status = ScrapeStatus.in_progress) := by
        rintro ⟨hcon, -⟩
        rw [hwid] at hcon
        exact hw hcon.symm
      simp [inProgressFor, hne]
    rw [hs0]
    simp only [Bool.false_eq_true, if_false]
    omega

theorem mutexInv_close {st st' : RecorderState} {sid : Nat}
    {o : ScrapeOutcome} {now : Nat}
    (hinv : mutexInv st) (h : closeSession st sid o now = Except.ok st') :
    mutexInv st' := by
  obtain ⟨s, _, _, hst⟩ := closeSession_ok_inv h
  subst hst
  intro wid0
  refine le_trans (countP_map_le _ _ _ ?_) (hinv wid0)
  intro t hpt
  by_cases hid : t.id = sid
  · rw [if_pos hid] at hpt
    exfalso
    have hconj := of_decide_eq_true hpt
    have hstat := hconj.2
    rw [closedSession_status] at hstat
    exact terminalStatus_ne_in_progress o hstat
  · rw [if_neg hid] at hpt
    exact hpt

/-- C2: at most one session per website is in progress in every reachable
recorder state; `open(website)` fails with `ConcurrencyConflict` exactly
when an in-progress session for that website already exists, and otherwise
creates a session that is immediately `in_progress` with `started_at`
stamped — so of two `open` calls for the same website arriving while one is
unfinished, the first succeeds and the second fails with
`ConcurrencyConflict`. -/
theorem session_mutual_exclusion :
    (∀ st, RecReachable st → mutexInv st)
  ∧ (∀ st wid now ua ip, hasInProgress st.sessions wid = true →
      openSession st wid now ua ip =
        Except.error RecorderError.ConcurrencyConflict)
  ∧ (∀ st wid now ua ip, hasInProgress st.sessions wid = false →
      ∃ st' s, openSession st wid now ua ip = Except.ok (st', s) ∧
        s.website_id = wid ∧ s.status = ScrapeStatus.in_progress ∧
        s.started_at = now)
  ∧ (∀ st wid now ua ip st' s now2 ua2 ip2,
      openSession st wid now ua ip = Except.ok (st', s) →
      openSession st' wid now2 ua2 ip2 =
        Except.error RecorderError.ConcurrencyConflict) := by
  refine ⟨?_, ?_, ?_, ?_⟩
  · intro st h
    induction h with
    | init ws => intro wid; simp
    | openStep _ _ _ _ _ hop ih => exact mutexInv_open ih hop
    | closeStep _ _ _ _ hcl ih => exact mutexInv_close ih hcl
  · intro st wid now ua ip hip
    unfold openSession
    rw [if_pos hip]
  · intro st wid now ua ip hip
    unfold openSession
    rw [if_neg (by simp [hip])]
    exact ⟨_, _, rfl, rfl, rfl, rfl⟩
  · intro st wid now ua ip st' s now2 ua2 ip2 h
    obtain ⟨_, hwid, hstat, _, hsess, _⟩ := openSession_ok_inv h
    have hhead : inProgressFor wid s = true := by
      simp [inProgressFor, hwid, hstat]
    have hip : hasInProgress st'.sessions wid = true := by
      rw [hsess]
      simp [hasInProgress, hhead]
    unfold openSession
    rw [if_pos hip]

/-- Concrete session produced by opening website 1 at time 5 in a
session-free state. -/
def sampleOpenSession : ScrapeSession :=
  { id := 0
    website_id := 1
    status := ScrapeStatus.in_progress
    started_at := 5
    completed_at := Option.none
    duration_seconds := Option.none
    anti_scraping_detected := AntiScrapingMeasure.none
    bypass_method_used := Option.none
    user_agent := Option.none
    ip_address := Option.none
    draws_found := 0
    draws_new := 0
    error_message := Option.none
    response_status_code := Option.none
    response_headers := [] }

/-- Concrete recorder state right after that open. -/
def sampleOpenState : RecorderState :=
  { websites := [sampleWebsite]
    sessions := [sampleOpenSession]
    next_session_id := 1 }

theorem session_mutual_exclusion_witness :
    openSession sampleOpenState 1 6 Option.none Option.none =
      Except.error RecorderError.ConcurrencyConflict :=
  session_mutual_exclusion.2.2.2
    { websites := [sampleWebsite], sessions := [], next_session_id := 0 }
    1 5 Option.none Option.none sampleOpenState sampleOpenSession
    6 Option.none Option.none rfl

theorem fillOpt_keep {α : Type} {a : Option α} (b : Option α)
    (h : a ≠ Option.none) : fillOpt a b = a := by
  cases a with
  | none => exact absurd rfl h
  | some v => rfl

theorem fillList_keep {α : Type} {a : List α} (b : List α)
    (h : a ≠ []) : fillList a b = a := by
  cases a with
  | nil => exact absurd rfl h
  | cons v rest => rfl

theorem fillOpt_absorbed {α : Type} {a b : Option α}
    (h : a = Option.none → b = Option.none) : fillOpt a b = a := by
  cases a with
  | none => exact h rfl
  | some v => rfl

theorem fillList_absorbed {α : Type} {a b : List α}
    (h : a = [] → b = []) : fillList a b = a := by
  cases a with
  | nil => exact h rfl
  | cons v rest => rfl

theorem fillOpt_eq_none {α : Type} {a b : Option α}
    (h : fillOpt a b = Option.none) : a = Option.none := by
  cases a with
  | none => rfl
  | some v => cases h

theorem fillOpt_eq_none_right {α : Type} {a b : Option α}
    (h : fillOpt a b = Option.none) : b = Option.none := by
  cases a with
  | none => exact h
  | some v => cases h

theorem fillList_eq_nil {α : Type} {a b : List α}
    (h : fillList a b = []) : a = [] := by
  cases a with
  | nil => rfl
  | cons v rest => cases h

theorem fillList_eq_nil_right {α : Type} {a b : List α}
    (h : fillList a b = []) : b = [] := by
  cases a with
  | nil => exact h
  | cons v rest => cases h

/-- A stored draw absorbs a record when every field that is empty/null on
the draw is also empty/null on the record — merging such a record changes
nothing. -/
def absorbs (d : LotteryDraw) (r : RawRecord) : Prop :=
  (d.draw_number = Option.none → r.draw_number = Option.none) ∧
  (d.game_name = Option.none → r.game_name = Option.none) ∧
  (d.winning_numbers = [] → r.winning_numbers = []) ∧
  (d.bonus_numbers = [] → r.bonus_numbers = []) ∧
  (d.special_numbers = [] → r.special_numbers = []) ∧
  (d.jackpot_amount = Option.none → r.jackpot_amount = Option.none) ∧
  (d.currency = Option.none → r.currency = Option.none) ∧
  (d.winners_count = Option.none → r.winners_count = Option.none) ∧
  (d.next_draw_date = Option.none → r.next_draw_date = Option.none) ∧
  (d.prize_breakdown = [] → r.prize_breakdown = []) ∧
  (d.raw_data = [] → r.raw_data = [])

theorem mergeDraw_of_absorbs {d : LotteryDraw} {r : RawRecord}
    (h : absorbs d r) : mergeDraw d r = d := by
  obtain ⟨h1, h2, h3, h4, h5, h6, h7, h8, h9, h10, h11⟩ := h
  cases d
  simp only [mergeDraw] at *
  simp only [fillOpt_absorbed h1, fillOpt_absorbed h2, fillList_absorbed h3,
    fillList_absorbed h4, fillList_absorbed h5, fillOpt_absorbed h6,
    fillOpt_absorbed h7, fillOpt_absorbed h8, fillOpt_absorbed h9,
    fillList_absorbed h10, fillList_absorbed h11]

theorem absorbs_mergeDraw_left {d : LotteryDraw} {r0 r : RawRecord}
    (h : absorbs d r0) : absorbs (mergeDraw d r) r0 := by
  obtain ⟨h1, h2, h3, h4, h5, h6, h7, h8, h9, h10, h11⟩ := h
  exact ⟨fun hn => h1 (fillOpt_eq_none hn), fun hn => h2 (fillOpt_eq_none hn),
    fun hn => h3 (fillList_eq_nil hn), fun hn => h4 (fillList_eq_nil hn),
    fun hn => h5 (fillList_eq_nil hn), fun hn => h6 (fillOpt_eq_none hn),
    fun hn => h7 (fillOpt_eq_none hn), fun hn => h8 (fillOpt_eq_none hn),
    fun hn => h9 (fillOpt_eq_none hn), fun hn => h10 (fillList_eq_nil hn),
    fun hn => h11 (fillList_eq_nil hn)⟩

theorem absorbs_mergeDraw_self (d : LotteryDraw) (r : RawRecord) :
    absorbs (mergeDraw d r) r :=
  ⟨fun hn => fillOpt_eq_none_right hn, fun hn => fillOpt_eq_none_right hn,
   fun hn => fillList_eq_nil_right hn, fun hn => fillList_eq_nil_right hn,
   fun hn => fillList_eq_nil_right hn, fun hn => fillOpt_eq_none_right hn,
   fun hn => fillOpt_eq_none_right hn, fun hn => fillOpt_eq_none_right hn,
   fun hn => fillOpt_eq_none_right hn, fun hn => fillList_eq_nil_right hn,
   fun hn => fillList_eq_nil_right hn⟩

theorem absorbs_newDrawFrom (nid wid dd : Nat) (r : RawRecord) (now : Nat) :
    absorbs (newDrawFrom nid wid dd r now) r :=
  ⟨id, id, id, id, id, id, id, id, id, id, id⟩

theorem keyOf_mergeDraw (d : LotteryDraw) (r : RawRecord) :
    keyOf (mergeDraw d r) = keyOf d := rfl

theorem keyOf_newDrawFrom (nid wid dd : Nat) (r : RawRecord) (now : Nat) :
    keyOf (newDrawFrom nid wid dd r now) = deriveKey wid dd r := rfl

/-- Concrete stored draw with `winners_count` null, key `(1, 100, "123")`. -/
def sampleStoredDraw : LotteryDraw :=
  { id := 4
    website_id := 1
    draw_date := 100
    draw_number := some "123"
    game_name := Option.none
    winning_numbers := [1, 2, 3]
    bonus_numbers := []
    special_numbers := []
    jackpot_amount := Option.none
    currency := Option.none
    winners_count := Option.none
    next_draw_date := Option.none
    prize_breakdown := []
    raw_data := []
    derived_key_tail := DrawKeyTail.byNumber "123"
    scraped_at := 90
    created_at := 90
    updated_at := 90 }

/-- Concrete record with the same canonical key and `winners_count = 5`. -/
def sampleRecordW5 : RawRecord :=
  { draw_date := some 100
    draw_number := some "123"
    game_name := Option.none
    winning_numbers := [1, 2, 3]
    bonus_numbers := []
    special_numbers := []
    jackpot_amount := Option.none
    currency := Option.none
    winners_count := some 5
    next_draw_date := Option.none
    prize_breakdown := []
    raw_data := [] }

/-- Concrete record with the same canonical key and `winners_count = 7`. -/
def sampleRecordW7 : RawRecord :=
  { sampleRecordW5 with winners_count := some 7 }

/-- C6: merging a record into a stored draw with a matching canonical key
fills every empty/null stored field from the record and leaves every
populated stored field unchanged (stored value wins on disagreement); in
particular, reconciling `winners_count = 5` against a stored null sets it
to 5 and subsequently reconciling `winners_count = 7` for the same key
leaves it at 5. -/
theorem merge_policy :
    (∀ d r,
      ((d.draw_number = Option.none →
          (mergeDraw d r).draw_number = r.draw_number) ∧
        (d.draw_number ≠ Option.none →
          (mergeDraw d r).draw_number = d.draw_number)) ∧
      ((d.game_name = Option.none →
          (mergeDraw d r).game_name = r.game_name) ∧
        (d.game_name ≠ Option.none →
          (mergeDraw d r).game_name = d.game_name)) ∧
      ((d.winning_numbers = [] →
          (mergeDraw d r).winning_numbers = r.winning_numbers) ∧
        (d.winning_numbers ≠ [] →
          (mergeDraw d r).winning_numbers = d.winning_numbers)) ∧
      ((d.bonus_numbers = [] →
          (mergeDraw d r).bonus_numbers = r.bonus_numbers) ∧
        (d.bonus_numbers ≠ [] →
          (mergeDraw d r).bonus_numbers = d.bonus_numbers)) ∧
      ((d.special_numbers = [] →
          (mergeDraw d r).special_numbers = r.special_numbers) ∧
        (d.special_numbers ≠ [] →
          (mergeDraw d r).special_numbers = d.special_numbers)) ∧
      ((d.jackpot_amount = Option.none →
          (mergeDraw d r).jackpot_amount = r.jackpot_amount) ∧
        (d.jackpot_amount ≠ Option.none →
          (mergeDraw d r).jackpot_amount = d.jackpot_amount)) ∧
      ((d.currency = Option.none →
          (mergeDraw d r).currency = r.currency) ∧
        (d.currency ≠ Option.none →
          (mergeDraw d r).currency = d.currency)) ∧
      ((d.winners_count = Option.none →
          (mergeDraw d r).winners_count = r.winners_count) ∧
        (d.winners_count ≠ Option.none →
          (mergeDraw d r).winners_count = d.winners_count)) ∧
      ((d.next_draw_date = Option.none →
          (mergeDraw d r).next_draw_date = r.next_draw_date) ∧
        (d.next_draw_date ≠ Option.none →
          (mergeDraw d r).next_draw_date = d.next_draw_date)) ∧
      ((d.prize_breakdown = [] →
          (mergeDraw d r).prize_breakdown = r.prize_breakdown) ∧
        (d.prize_breakdown ≠ [] →
          (mergeDraw d r).prize_breakdown = d.prize_breakdown)) ∧
      ((d.raw_data = [] → (mergeDraw d r).raw_data = r.raw_data) ∧
        (d.raw_data ≠ [] → (mergeDraw d r).raw_data = d.raw_data)))
  ∧ ((reconcileBatch 1 30 [sampleRecordW5] [sampleStoredDraw] 9).store.map
        (fun d => d.winners_count) = [some 5] ∧
      (reconcileBatch 1 31 [sampleRecordW7]
          (reconcileBatch 1 30 [sampleRecordW5] [sampleStoredDraw] 9).store
          9).store.map (fun d => d.winners_count) = [some 5]) := by
  constructor
  · intro d r
    refine ⟨⟨?_, ?_⟩, ⟨?_, ?_⟩, ⟨?_, ?_⟩, ⟨?_, ?_⟩, ⟨?_, ?_⟩, ⟨?_, ?_⟩,
      ⟨?_, ?_⟩, ⟨?_, ?_⟩, ⟨?_, ?_⟩, ⟨?_, ?_⟩, ⟨?_, ?_⟩⟩ <;>
      intro h <;>
      first
        | (simp [mergeDraw, h, fillOpt, fillList]; done)
        | (simp [mergeDraw, fillOpt_keep _ h]; done)
        | (simp [mergeDraw, fillList_keep _ h]; done)
  · exact ⟨by decide, by decide⟩

theorem merge_policy_witness :
    (mergeDraw sampleStoredDraw sampleRecordW5).winners_count =
      sampleRecordW5.winners_count ∧
    (mergeDraw sampleStoredDraw sampleRecordW5).winning_numbers =
      sampleStoredDraw.winning_numbers :=
  ⟨((merge_policy.1 sampleStoredDraw
      sampleRecordW5).2.2.2.2.2.2.2.1).1 rfl,
   ((merge_policy.1 sampleStoredDraw
      sampleRecordW5).2.2.1).2 (by decide)⟩

theorem findByKey_append_left {l1 l2 : List LotteryDraw} {k : DrawKey}
    {d : LotteryDraw} (h : findByKey l1 k = some d) :
    findByKey (l1 ++ l2) k = some d := by
  induction l1 with
  | nil => simp [findByKey] at h
  | cons a l ih =>
    by_cases ha : keyOf a = k
    · rw [findByKey, List.find?_cons_of_pos _ (by simp [ha])] at h
      rw [List.cons_append, findByKey,
        List.find?_cons_of_pos _ (by simp [ha])]
      exact h
    · rw [findByKey, List.find?_cons_of_neg _ (by simp [ha])] at h
      rw [List.cons_append, findByKey,
        List.find?_cons_of_neg _ (by simp [ha])]
      exact ih h

theorem findByKey_append_right {l1 l2 : List LotteryDraw} {k : DrawKey}
    (h : findByKey l1 k = Option.none) :
    findByKey (l1 ++ l2) k = findByKey l2 k := by
  induction l1 with
  | nil => simp
  | cons a l ih =>
    by_cases ha : keyOf a = k
    · rw [findByKey, List.find?_cons_of_pos _ (by simp [ha])] at h
      cases h
    · rw [findByKey, List.find?_cons_of_neg _ (by simp [ha])] at h
      rw [List.cons_append, findByKey,
        List.find?_cons_of_neg _ (by simp [ha])]
      exact ih h

theorem findByKey_eq_none_iff {l : List LotteryDraw} {k : DrawKey} :
    findByKey l k = Option.none ↔ ∀ d ∈ l, keyOf d ≠ k := by
  rw [findByKey, List.find?_eq_none]
  constructor
  · intro h d hd
    have := h d hd
    simpa using this
  · intro h d hd
    simpa using h d hd

theorem findByKey_updateByKey_same {l : List LotteryDraw} {k : DrawKey}
    {d : LotteryDraw} {f : LotteryDraw → LotteryDraw}
    (hf : ∀ x, keyOf (f x) = keyOf x)
    (h : findByKey l k = some d) :
    findByKey (updateByKey l k f) k = some (f d) := by
  induction l with
  | nil => simp [findByKey] at h
  | cons a l ih =>
    by_cases ha : keyOf a = k
    · rw [findByKey, List.find?_cons_of_pos _ (by simp [ha])] at h
      cases h
      rw [updateByKey, if_pos ha, findByKey,
        List.find?_cons_of_pos _ (by simp [hf, ha])]
    · rw [findByKey, List.find?_cons_of_neg _ (by simp [ha])] at h
      rw [updateByKey, if_neg ha, findByKey,
        List.find?_cons_of_neg _ (by simp [ha])]
      exact ih h

theorem findByKey_updateByKey_ne {l : List LotteryDraw} {k k' : DrawKey}
    {f : LotteryDraw → LotteryDraw}
    (hf : ∀ x, keyOf (f x) = keyOf x) (hkk : k' ≠ k) :
    findByKey (updateByKey l k f) k' = findByKey l k' := by
  induction l with
  | nil => rfl
  | cons a l ih =>
    by_cases ha : keyOf a = k
    · rw [updateByKey, if_pos ha]
      have hne : ¬ keyOf (f a) = k' := by
        rw [hf, ha]
        exact fun hc => hkk hc.symm
      have hne' : ¬ keyOf a = k' := by
        rw [ha]
        exact fun hc => hkk hc.symm
      rw [findByKey, List.find?_cons_of_neg _ (by simp [hne]), findByKey,
        List.find?_cons_of_neg _ (by simp [hne'])]
    · rw [updateByKey, if_neg ha]
      by_cases ha' : keyOf a = k'
      · rw [findByKey, List.find?_cons_of_pos _ (by simp [ha']), findByKey,
          List.find?_cons_of_pos _ (by simp [ha'])]
      · rw [findByKey, List.find?_cons_of_neg _ (by simp [ha']), findByKey,
          List.find?_cons_of_neg _ (by simp [ha'])]
        exact ih

theorem updateByKey_self {l : List LotteryDraw} {k : DrawKey}
    {d : LotteryDraw} {f : LotteryDraw → LotteryDraw}
    (h : findByKey l k = some d) (hfd : f d = d) :
    updateByKey l k f = l := by
  induction l with
  | nil => simp [findByKey] at h
  | cons a l ih =>
    by_cases ha : keyOf a = k
    · rw [findByKey, List.find?_cons_of_pos _ (by simp [ha])] at h
      cases h
      rw [updateByKey, if_pos ha, hfd]
    · rw [findByKey, List.find?_cons_of_neg _ (by simp [ha])] at h
      rw [updateByKey, if_neg ha, ih h]

theorem map_keyOf_updateByKey {l : List LotteryDraw} {k : DrawKey}
    {f : LotteryDraw → LotteryDraw} (hf : ∀ x, keyOf (f x) = keyOf x) :
    (updateByKey l k f).map keyOf = l.map keyOf := by
  induction l with
  | nil => rfl
  | cons a l ih =>
    by_cases ha : keyOf a = k
    · rw [updateByKey, if_pos ha, List.map_cons, List.map_cons, hf]
    · rw [updateByKey, if_neg ha, List.map_cons, List.map_cons, ih]

theorem keysUnique_reconcileRecord {wid now : Nat} {st : ReconcileState}
    {r : RawRecord} (h : keysUnique st.store) :
    keysUnique (reconcileRecord wid now st r).store := by
  unfold reconcileRecord
  cases hdd : r.draw_date with
  | none => exact h
  | some dd =>
    by_cases hw : r.winning_numbers.isEmpty
    · simp only [if_pos hw]
      exact h
    · simp only [if_neg hw]
      cases hfind : findByKey st.store (deriveKey wid dd r) with
      | none =>
        simp only []
        unfold keysUnique at h ⊢
        rw [List.map_append, List.map_cons, List.map_nil]
        rw [List.nodup_append]
        refine ⟨h, List.nodup_singleton _, ?_⟩
        intro a ha hb
        rw [List.mem_singleton] at hb
        rw [List.mem_map] at ha
        obtain ⟨d0, hd0, hkey⟩ := ha
        apply findByKey_eq_none_iff.mp hfind d0 hd0
        rw [hkey, hb, keyOf_newDrawFrom]
      | some d0 =>
        simp only []
        unfold keysUnique at h ⊢
        rw [map_keyOf_updateByKey (fun x => keyOf_mergeDraw x r)]
        exact h

/-- C3: in every draw store reachable through the Draw Reconciler, no two
stored rows share the same canonical key (website, normalized draw date,
draw number if present else a hash of game name and winning numbers) —
reconciliation never creates a second row for the same logical draw. -/
theorem draw_key_uniqueness :
    ∀ S, DrawStoreReachable S → keysUnique S := by
  intro S h
  induction h with
  | base => exact List.nodup_nil
  | step wid now nid B hS ih =>
    unfold reconcileBatch
    have hgen : ∀ (rs : List RawRecord) (st : ReconcileState),
        keysUnique st.store →
        keysUnique (rs.foldl (reconcileRecord wid now) st).store := by
      intro rs
      induction rs with
      | nil => intro st hst; exact hst
      | cons r rs ihr =>
        intro st hst
        exact ihr _ (keysUnique_reconcileRecord hst)
    exact hgen B _ ih

theorem draw_key_uniqueness_witness :
    keysUnique
      (reconcileBatch 1 30 [sampleRecordW5, sampleRecordW7] [] 9).store :=
  draw_key_uniqueness _
    (DrawStoreReachable.step 1 30 9 [sampleRecordW5, sampleRecordW7]
      DrawStoreReachable.base)

/-- A record is settled for a store when it is either deterministically
rejected by validation or its canonical key is present with a stored draw
absorbing it. -/
def GoodFor (wid : Nat) (r : RawRecord) (store : List LotteryDraw) : Prop :=
  rejectReason r ≠ Option.none ∨
  (∃ dd, r.draw_date = some dd ∧ r.winning_numbers.isEmpty = false ∧
    ∃ d, findByKey store (deriveKey wid dd r) = some d ∧ absorbs d r)

theorem rejectReason_some_inv {r : RawRecord}
    (h : rejectReason r ≠ Option.none) :
    r.draw_date = Option.none ∨ r.winning_numbers.isEmpty = true := by
  unfold rejectReason at h
  split at h
  · next hdd => exact Or.inl hdd
  · next dd hdd =>
    by_cases hw : r.winning_numbers.isEmpty
    · exact Or.inr hw
    · rw [if_neg hw] at h
      exact absurd rfl h

theorem rejectReason_none_inv {r : RawRecord}
    (h : rejectReason r = Option.none) :
    ∃ dd, r.draw_date = some dd ∧ r.winning_numbers.isEmpty = false := by
  unfold rejectReason at h
  split at h
  · cases h
  · next dd hdd =>
    by_cases hw : r.winning_numbers.isEmpty
    · rw [if_pos hw] at h
      cases h
    · exact ⟨dd, hdd, by simpa using hw⟩

theorem reconcileRecord_rejected (wid now : Nat) (st : ReconcileState)
    (r : RawRecord) (h : rejectReason r ≠ Option.none) :
    (reconcileRecord wid now st r).store = st.store ∧
    (reconcileRecord wid now st r).draws_new = st.draws_new := by
  unfold reconcileRecord
  rcases rejectReason_some_inv h with hdd | hw
  · cases hdd2 : r.draw_date with
    | none => exact ⟨rfl, rfl⟩
    | some dd => rw [hdd2] at hdd; cases hdd
  · cases hdd2 : r.draw_date with
    | none => exact ⟨rfl, rfl⟩
    | some dd =>
      have hwnil : r.winning_numbers = [] := by simpa using hw
      simp [hwnil]

theorem reconcileRecord_valid (wid now : Nat) (st : ReconcileState)
    (r : RawRecord) (dd : Nat) (hdd : r.draw_date = some dd)
    (hw : r.winning_numbers.isEmpty = false) :
    (findByKey st.store (deriveKey wid dd r) = Option.none ∧
      (reconcileRecord wid now st r).store =
        st.store ++ [newDrawFrom st.next_id wid dd r now] ∧
      (reconcileRecord wid now st r).draws_new = st.draws_new + 1) ∨
    (∃ d, findByKey st.store (deriveKey wid dd r) = some d ∧
      (reconcileRecord wid now st r).store =
        updateByKey st.store (deriveKey wid dd r) (fun x => mergeDraw x r) ∧
      (reconcileRecord wid now st r).draws_new = st.draws_new) := by
  unfold reconcileRecord
  cases hdd2 : r.draw_date with
  | none => rw [hdd2] at hdd; cases hdd
  | some dd2 =>
    rw [hdd2] at hdd
    have hdd3 : dd2 = dd := Option.some.inj hdd
    subst hdd3
    have hnw : ¬ r.winning_numbers.isEmpty = true := by simp [hw]
    simp only [if_neg hnw]
    cases hfind : findByKey st.store (deriveKey wid dd2 r) with
    | none => exact Or.inl ⟨rfl, rfl, rfl⟩
    | some d => exact Or.inr ⟨d, rfl, rfl, rfl⟩

theorem goodFor_reconcileRecord_self (wid now : Nat) (st : ReconcileState)
    (r : RawRecord) : GoodFor wid r (reconcileRecord wid now st r).store := by
  by_cases hrej : rejectReason r ≠ Option.none
  · exact Or.inl hrej
  · rw [not_not] at hrej
    obtain ⟨dd, hdd, hw⟩ := rejectReason_none_inv hrej
    right
    refine ⟨dd, hdd, hw, ?_⟩
    rcases reconcileRecord_valid wid now st r dd hdd hw with
      ⟨hfind, hst, -⟩ | ⟨d, hfind, hst, -⟩
    · rw [hst]
      refine ⟨newDrawFrom st.next_id wid dd r now, ?_,
        absorbs_newDrawFrom _ _ _ _ _⟩
      rw [findByKey_append_right hfind, findByKey,
        List.find?_cons_of_pos _ (by simp [keyOf_newDrawFrom])]
    · rw [hst]
      exact ⟨mergeDraw d r,
        findByKey_updateByKey_same (fun x => keyOf_mergeDraw x r) hfind,
        absorbs_mergeDraw_self d r⟩

theorem goodFor_reconcileRecord_other (wid now : Nat) (st : ReconcileState)
    (r r0 : RawRecord) (h : GoodFor wid r0 st.store) :
    GoodFor wid r0 (reconcileRecord wid now st r).store := by
  rcases h with hrej0 | ⟨dd0, hdd0, hw0, d0, hfind0, habs0⟩
  · exact Or.inl hrej0
  · right
    refine ⟨dd0, hdd0, hw0, ?_⟩
    by_cases hrej : rejectReason r ≠ Option.none
    · rw [(reconcileRecord_rejected wid now st r hrej).1]
      exact ⟨d0, hfind0, habs0⟩
    · rw [not_not] at hrej
      obtain ⟨dd, hdd, hw⟩ := rejectReason_none_inv hrej
      rcases reconcileRecord_valid wid now st r dd hdd hw with
        ⟨hfind, hst, -⟩ | ⟨d, hfind, hst, -⟩
      · rw [hst]
        exact ⟨d0, findByKey_append_left hfind0, habs0⟩
      · rw [hst]
        by_cases hkk : deriveKey wid dd0 r0 = deriveKey wid dd r
        · rw [hkk] at hfind0
          have hd : d = d0 := Option.some.inj (hfind.symm.trans hfind0)
          subst hd
          refine ⟨mergeDraw d r, ?_, absorbs_mergeDraw_left habs0⟩
          rw [hkk]
          exact findByKey_updateByKey_same (fun x => keyOf_mergeDraw x r)
            hfind
        · refine ⟨d0, ?_, habs0⟩
          rw [findByKey_updateByKey_ne (fun x => keyOf_mergeDraw x r) hkk]
          exact hfind0

theorem goodFor_foldl (wid now : Nat) (r0 : RawRecord) :
    ∀ (rs : List RawRecord) (st : ReconcileState),
      GoodFor wid r0 st.store →
      GoodFor wid r0 ((rs.foldl (reconcileRecord wid now) st)).store := by
  intro rs
  induction rs with
  | nil => intro st h; exact h
  | cons r rs ih =>
    intro st h
    exact ih _ (goodFor_reconcileRecord_other wid now st r r0 h)

theorem goodFor_all_after (wid now : Nat) :
    ∀ (rs : List RawRecord) (st : ReconcileState) (r : RawRecord), r ∈ rs →
      GoodFor wid r ((rs.foldl (reconcileRecord wid now) st)).store := by
  intro rs
  induction rs with
  | nil => intro st r hr; cases hr
  | cons a rs ih =>
    intro st r hr
    rw [List.foldl_cons]
    rcases List.mem_cons.mp hr with hre | hr'
    · subst hre
      exact goodFor_foldl wid now r rs _
        (goodFor_reconcileRecord_self wid now st r)
    · exact ih _ r hr'

theorem reconcile_noop (wid now : Nat) :
    ∀ (rs : List RawRecord) (st : ReconcileState),
      (∀ r ∈ rs, GoodFor wid r st.store) →
      ((rs.foldl (reconcileRecord wid now) st)).store = st.store ∧
      ((rs.foldl (reconcileRecord wid now) st)).draws_new = st.draws_new := by
  intro rs
  induction rs with
  | nil => intro st _; exact ⟨rfl, rfl⟩
  | cons a rs ih =>
    intro st h
    rw [List.foldl_cons]
    have ha := h a (List.mem_cons_self a rs)
    have hstep : (reconcileRecord wid now st a).store = st.store ∧
        (reconcileRecord wid now st a).draws_new = st.draws_new := by
      rcases ha with hrej | ⟨dd, hdd, hw, d, hfind, habs⟩
      · exact reconcileRecord_rejected wid now st a hrej
      · rcases reconcileRecord_valid wid now st a dd hdd hw with
          ⟨hfind2, -, -⟩ | ⟨d2, hfind2, hst, hnew⟩
        · rw [hfind] at hfind2
          cases hfind2
        · refine ⟨?_, hnew⟩
          rw [hst]
          have hd : d2 = d := Option.some.inj (hfind2.symm.trans hfind)
          subst hd
          exact updateByKey_self hfind2 (mergeDraw_of_absorbs habs)
    have hrest : ∀ r ∈ rs, GoodFor wid r (reconcileRecord wid now st a).store := by
      intro r hr
      rw [hstep.1]
      exact h r (List.mem_cons_of_mem a hr)
    obtain ⟨h1, h2⟩ := ih _ hrest
    rw [h1, h2, hstep.1, hstep.2]
    exact ⟨rfl, rfl⟩

/-- C1: reconciliation is idempotent — for every website and batch of raw
extracted records, running the Draw Reconciler and then running it again on
the identical batch against the resulting store produces zero new draws the
second time and leaves every stored draw (hence every stored field value)
unchanged, whatever the starting store and timestamps. -/
theorem reconcile_idempotent :
    ∀ (wid now now2 : Nat) (B : List RawRecord) (S0 : List LotteryDraw)
      (nid : Nat),
      (reconcileBatch wid now2 B (reconcileBatch wid now B S0 nid).store
        (reconcileBatch wid now B S0 nid).next_id).draws_new = 0 ∧
      (reconcileBatch wid now2 B (reconcileBatch wid now B S0 nid).store
        (reconcileBatch wid now B S0 nid).next_id).store =
        (reconcileBatch wid now B S0 nid).store := by
  intro wid now now2 B S0 nid
  have hall : ∀ r ∈ B, GoodFor wid r (reconcileBatch wid now B S0 nid).store := by
    intro r hr
    exact goodFor_all_after wid now B _ r hr
  have h := reconcile_noop wid now2 B
    { store := (reconcileBatch wid now B S0 nid).store
      next_id := (reconcileBatch wid now B S0 nid).next_id
      draws_found := 0
      draws_new := 0
      rejected := [] } hall
  exact ⟨h.2, h.1⟩

/-- Combined structural invariant of the website store: ids are below the
fresh-id counter, ids are pairwise distinct, URLs are pairwise distinct,
and every stored scrape interval lies between 1 and 1440 minutes. -/
def websiteInv (st : WebsiteStore) : Prop :=
  (∀ w ∈ st.websites, w.id < st.next_id) ∧
  List.Pairwise (fun a b => a.id ≠ b.id) st.websites ∧
  List.Pairwise (fun a b => a.url ≠ b.url) st.websites ∧
  ∀ w ∈ st.websites,
    1 ≤ w.scrape_interval_minutes ∧ w.scrape_interval_minutes ≤ 1440

theorem validWebsiteCreate_interval {c : LotteryWebsiteCreate}
    (h : validWebsiteCreate c = true) :
    1 ≤ c.scrape_interval_minutes ∧ c.scrape_interval_minutes ≤ 1440 := by
  have hp := of_decide_eq_true h
  exact ⟨hp.2.2.2.1, hp.2.2.2.2⟩

theorem validWebsiteUpdate_interval {u : LotteryWebsiteUpdate}
    (h : validWebsiteUpdate u = true) :
    ∀ i, u.scrape_interval_minutes = some i → 1 ≤ i ∧ i ≤ 1440 := by
  intro i hi
  unfold validWebsiteUpdate at h
  rw [Bool.and_eq_true, Bool.and_eq_true, Bool.and_eq_true] at h
  have hall := h.2
  rw [hi] at hall
  exact of_decide_eq_true (by simpa [Option.all] using hall)

theorem createWebsite_ok_inv {st st' : WebsiteStore}
    {c : LotteryWebsiteCreate} {now : Nat}
    (h : createWebsite st c now = Except.ok st') :
    validWebsiteCreate c = true ∧ urlTaken st.websites c.url = false ∧
    st' = { websites := st.websites ++ [newWebsiteFrom st.next_id c now]
            next_id := st.next_id + 1 } := by
  unfold createWebsite at h
  split at h
  · cases h
  · next hv =>
    split at h
    · cases h
    · next hurl =>
      refine ⟨by simpa using hv, by simpa using hurl, (Except.ok.inj h).symm⟩

theorem updateWebsite_ok_inv {st st' : WebsiteStore} {wid : Nat}
    {u : LotteryWebsiteUpdate} {now : Nat}
    (h : updateWebsite st wid u now = Except.ok st') :
    validWebsiteUpdate u = true ∧
    ∃ w, findWebsite st.websites wid = some w ∧
      (∀ x ∈ st.websites,
        ¬ (¬ x.id = wid ∧ x.url = (applyUpdate w u now).url)) ∧
      st' = { st with websites := st.websites.map fun x =>
        if x.id = wid then applyUpdate x u now else x } := by
  unfold updateWebsite at h
  split at h
  · cases h
  · next hv =>
    split at h
    · cases h
    · next w hw =>
      split at h
      · cases h
      · next hdup =>
        refine ⟨by simpa using hv, w, hw, ?_, (Except.ok.inj h).symm⟩
        intro x hx hcon
        apply hdup
        exact List.any_eq_true.mpr ⟨x, hx, decide_eq_true hcon⟩

theorem websiteInv_create {st st' : WebsiteStore} {c : LotteryWebsiteCreate}
    {now : Nat} (hinv : websiteInv st)
    (h : createWebsite st c now = Except.ok st') : websiteInv st' := by
  obtain ⟨hv, hurl, hst⟩ := createWebsite_ok_inv h
  obtain ⟨hfresh, hids, hurls, hint⟩ := hinv
  subst hst
  have hurlall : ∀ x ∈ st.websites, x.url ≠ c.url := by
    intro x hx hcon
    have hany : st.websites.any (fun w => decide (w.url = c.url)) = true :=
      List.any_eq_true.mpr ⟨x, hx, decide_eq_true hcon⟩
    rw [urlTaken] at hurl
    rw [hurl] at hany
    cases hany
  refine ⟨?_, ?_, ?_, ?_⟩
  · intro w hw
    rcases List.mem_append.mp hw with hw1 | hw2
    · exact Nat.lt_succ_of_lt (hfresh w hw1)
    · rw [List.mem_singleton] at hw2
      subst hw2
      exact Nat.lt_succ_self _
  · rw [List.pairwise_append]
    refine ⟨hids, List.pairwise_singleton _ _, ?_⟩
    intro a ha b hb
    rw [List.mem_singleton] at hb
    subst hb
    intro hcon
    have hlt := hfresh a ha
    rw [hcon] at hlt
    simp [newWebsiteFrom] at hlt
  · rw [List.pairwise_append]
    refine ⟨hurls, List.pairwise_singleton _ _, ?_⟩
    intro a ha b hb
    rw [List.mem_singleton] at hb
    subst hb
    simpa [newWebsiteFrom] using hurlall a ha
  · intro w hw
    rcases List.mem_append.mp hw with hw1 | hw2
    · exact hint w hw1
    · rw [List.mem_singleton] at hw2
      subst hw2
      simpa [newWebsiteFrom] using validWebsiteCreate_interval hv

theorem pairwise_url_update (wid : Nat) (u : LotteryWebsiteUpdate)
    (now : Nat) (newUrl : String) :
    ∀ l : List LotteryWebsite,
      List.Pairwise (fun a b => a.id ≠ b.id) l →
      List.Pairwise (fun a b => a.url ≠ b.url) l →
      (∀ x ∈ l, ¬ (¬ x.id = wid ∧ x.url = newUrl)) →
      (∀ x : LotteryWebsite,
        ((if x.id = wid then applyUpdate x u now else x)).url = x.url ∨
        (((if x.id = wid then applyUpdate x u now else x)).url = newUrl ∧
          x.id = wid)) →
      List.Pairwise (fun a b => a.url ≠ b.url)
        (l.map fun x => if x.id = wid then applyUpdate x u now else x) := by
  intro l
  induction l with
  | nil => intro _ _ _ _; exact List.Pairwise.nil
  | cons a l ih =>
    intro hids hurls hdup hchar
    rw [List.pairwise_cons] at hids hurls
    rw [List.map_cons, List.pairwise_cons]
    constructor
    · intro b' hb'
      rw [List.mem_map] at hb'
      obtain ⟨b, hb, hEq⟩ := hb'
      subst hEq
      rcases hchar a with hfa | ⟨hfa, haid⟩
      · rcases hchar b with hfb | ⟨hfb, hbid⟩
        · rw [hfa, hfb]
          exact hurls.1 b hb
        · rw [hfa, hfb]
          intro hcon
          apply hdup a (List.mem_cons_self a l)
          constructor
          · intro haw
            exact hids.1 b hb (haw.trans hbid.symm)
          · exact hcon
      · rcases hchar b with hfb | ⟨hfb, hbid⟩
        · rw [hfa, hfb]
          intro hcon
          apply hdup b (List.mem_cons_of_mem a hb)
          constructor
          · intro hbw
            exact hids.1 b hb (haid.trans hbw.symm)
          · exact hcon.symm
        · exact absurd (haid.trans hbid.symm) (hids.1 b hb)
    · exact ih hids.2 hurls.2
        (fun x hx => hdup x (List.mem_cons_of_mem a hx)) hchar

theorem websiteInv_update {st st' : WebsiteStore} {wid : Nat}
    {u : LotteryWebsiteUpdate} {now : Nat} (hinv : websiteInv st)
    (h : updateWebsite st wid u now = Except.ok st') : websiteInv st' := by
  obtain ⟨hv, w, hfindw, hdup, hst⟩ := updateWebsite_ok_inv h
  obtain ⟨hfresh, hids, hurls, hint⟩ := hinv
  subst hst
  have hid : ∀ x : LotteryWebsite,
      ((if x.id = wid then applyUpdate x u now else x)).id = x.id := by
    intro x
    by_cases hx : x.id = wid <;> simp [hx, applyUpdate]
  have hchar : ∀ x : LotteryWebsite,
      ((if x.id = wid then applyUpdate x u now else x)).url = x.url ∨
      (((if x.id = wid then applyUpdate x u now else x)).url =
        (applyUpdate w u now).url ∧ x.id = wid) := by
    intro x
    by_cases hx : x.id = wid
    · cases hu : u.url with
      | none => left; simp [hx, applyUpdate, hu]
      | some v => right; exact ⟨by simp [hx, applyUpdate, hu], hx⟩
    · left; simp [hx]
  refine ⟨?_, ?_, ?_, ?_⟩
  · intro w' hw'
    rw [List.mem_map] at hw'
    obtain ⟨x, hx, hEq⟩ := hw'
    subst hEq
    rw [hid x]
    exact hfresh x hx
  · rw [List.pairwise_map]
    exact hids.imp fun hab hcon =>
      hab (((hid _).symm.trans hcon).trans (hid _))
  · exact pairwise_url_update wid u now (applyUpdate w u now).url
      st.websites hids hurls hdup hchar
  · intro w' hw'
    rw [List.mem_map] at hw'
    obtain ⟨x, hx, hEq⟩ := hw'
    subst hEq
    by_cases hxi : x.id = wid
    · cases hu : u.scrape_interval_minutes with
      | none => simpa [hxi, applyUpdate, hu] using hint x hx
      | some i =>
        simpa [hxi, applyUpdate, hu] using
          validWebsiteUpdate_interval hv i hu
    · simpa [hxi] using hint x hx

theorem websiteInv_stamp {st : WebsiteStore} {wid now : Nat}
    (hinv : websiteInv st) :
    websiteInv { st with
      websites := stampLastScraped st.websites wid now } := by
  obtain ⟨hfresh, hids, hurls, hint⟩ := hinv
  have hpres : ∀ x : LotteryWebsite,
      ((if x.id = wid then { x with last_scraped_at := some now }
        else x)).id = x.id ∧
      ((if x.id = wid then { x with last_scraped_at := some now }
        else x)).url = x.url ∧
      ((if x.id = wid then { x with last_scraped_at := some now }
        else x)).scrape_interval_minutes = x.scrape_interval_minutes := by
    intro x
    by_cases hx : x.id = wid <;> simp [hx]
  refine ⟨?_, ?_, ?_, ?_⟩
  · intro w' hw'
    rw [stampLastScraped, List.mem_map] at hw'
    obtain ⟨x, hx, hEq⟩ := hw'
    subst hEq
    rw [(hpres x).1]
    exact hfresh x hx
  · rw [stampLastScraped, List.pairwise_map]
    exact hids.imp fun hab hcon =>
      hab (((hpres _).1.symm.trans hcon).trans (hpres _).1)
  · rw [stampLastScraped, List.pairwise_map]
    exact hurls.imp fun hab hcon =>
      hab (((hpres _).2.1.symm.trans hcon).trans (hpres _).2.1)
  · intro w' hw'
    rw [stampLastScraped, List.mem_map] at hw'
    obtain ⟨x, hx, hEq⟩ := hw'
    subst hEq
    rw [(hpres x).2.2]
    exact hint x hx

theorem websiteInv_reachable : ∀ st, WebsiteReachable st → websiteInv st := by
  intro st h
  induction h with
  | base =>
    exact ⟨fun w hw => absurd hw (List.not_mem_nil w), List.Pairwise.nil,
      List.Pairwise.nil, fun w hw => absurd hw (List.not_mem_nil w)⟩
  | createStep c now _ hc ih => exact websiteInv_create ih hc
  | updateStep wid u now _ hu ih => exact websiteInv_update ih hu
  | stampStep wid now _ ih => exact websiteInv_stamp ih

/-- C9: every website accepted by the create or update operations has a
scrape interval between 1 and 1440 minutes, and no operation of the system
(create, update, or the scraper's `last_scraped_at` stamp) ever moves a
stored website's interval outside that range. -/
theorem interval_bounds :
    ∀ st, WebsiteReachable st → ∀ w ∈ st.websites,
      1 ≤ w.scrape_interval_minutes ∧ w.scrape_interval_minutes ≤ 1440 := by
  intro st h
  exact (websiteInv_reachable st h).2.2.2

/-- C10: no two stored websites share the same URL — the schema's unique
constraint on `url` makes it an alternate key, and every reachable website
store keeps URLs pairwise distinct. -/
theorem url_uniqueness :
    ∀ st, WebsiteReachable st →
      List.Pairwise (fun a b => a.url ≠ b.url) st.websites := by
  intro st h
  exact (websiteInv_reachable st h).2.2.1

/-- Concrete website creation payload used by witnesses. -/
def sampleCreate : LotteryWebsiteCreate :=
  { name := "Lotto"
    url := "https://example.org"
    country := "US"
    is_active := true
    scrape_interval_minutes := 60
    selectors := []
    headers := []
    anti_scraping_config := [] }

/-- Concrete website store reached by one create from the empty store. -/
def sampleWebsiteStore : WebsiteStore :=
  { websites := [newWebsiteFrom 0 sampleCreate 3], next_id := 1 }

theorem interval_bounds_witness :
    1 ≤ (newWebsiteFrom 0 sampleCreate 3).scrape_interval_minutes ∧
      (newWebsiteFrom 0 sampleCreate 3).scrape_interval_minutes ≤ 1440 :=
  interval_bounds sampleWebsiteStore
    (WebsiteReachable.createStep sampleCreate 3 WebsiteReachable.base rfl)
    (newWebsiteFrom 0 sampleCreate 3) (List.mem_singleton.mpr rfl)

theorem url_uniqueness_witness :
    List.Pairwise (fun a b => a.url ≠ b.url) sampleWebsiteStore.websites :=
  url_uniqueness sampleWebsiteStore
    (WebsiteReachable.createStep sampleCreate 3 WebsiteReachable.base rfl)
